import Mathlib

/-!
Verification development for the `dataeng-utils` pipeline bookkeeping layer:
the metadata store (`src/metadata/dataeng/utils/metadata/common.py`) and the
naming deriver (`src/naming/dataeng/utils/naming/naming.py`).

The metadata document is the JSON object described in the data model:
string-keyed objects whose leaves are strings.  Python `dict`s are embedded
as insertion-ordered association lists (assignment replaces the value in
place when the key is present and appends otherwise; deletion removes the
entry), and Python runtime errors (`TypeError`, `KeyError`,
`json.JSONDecodeError`) are embedded with `Except`.  The object store is a
map from blob names to blob contents; `json.dumps`/`json.loads` are modelled
at the value level: an uploaded document is stored as the JSON value it
serialises to, and a blob whose body is not valid JSON is the distinguished
content `Blob.notJson`, on which `json.loads` raises.  The wall clock
(`datetime.utcnow()`) is passed in as an explicit `now` string.
-/

namespace DataengUtils

/-- A JSON value of the metadata document universe: a string leaf or a
string-keyed object with insertion-ordered fields. -/
inductive Json where
  | str : String → Json
  | obj : List (String × Json) → Json

/-- Boolean equality on JSON values. -/
def Json.beq : Json → Json → Bool
  | .str a, .str b => a == b
  | .obj [], .obj [] => true
  | .obj ((k, v) :: r), .obj ((k', v') :: r') =>
    k == k' && Json.beq v v' && Json.beq (.obj r) (.obj r')
  | _, _ => false

theorem Json.beq_eq_true_iff : (a b : Json) → (Json.beq a b = true ↔ a = b)
  | .str _, .str _ => by simp [Json.beq]
  | .str _, .obj _ => by simp [Json.beq]
  | .obj _, .str _ => by simp [Json.beq]
  | .obj [], .obj [] => by simp [Json.beq]
  | .obj [], .obj (_ :: _) => by simp [Json.beq]
  | .obj (x :: _), .obj [] => by cases x; simp [Json.beq]
  | .obj ((k, v) :: r), .obj ((k', v') :: r') => by
    have h1 := Json.beq_eq_true_iff v v'
    have h2 := Json.beq_eq_true_iff (.obj r) (.obj r')
    simp only [Json.beq, Bool.and_eq_true, h1, h2, Json.obj.injEq, List.cons.injEq,
      Prod.mk.injEq, beq_iff_eq]
  termination_by a _ => sizeOf a

instance : DecidableEq Json := fun a b => decidable_of_iff _ (Json.beq_eq_true_iff a b)

/-- Python runtime errors surfaced by the embedded operations. -/
inductive PyErr where
  | typeError
  | keyError
  | jsonDecodeError
deriving DecidableEq


/-- First value bound to `key`, in insertion order (Python `d[key]` on a
present key / `key in d` test). -/
def dictLookup : List (String × Json) → String → Option Json
  | [], _ => none
  | (k, v) :: rest, key => if k = key then some v else dictLookup rest key

/-- Python `d[key] = val`: replaces the value in place when the key is
present, appends the binding otherwise. -/
def dictSet : List (String × Json) → String → Json → List (String × Json)
  | [], key, val => [(key, val)]
  | (k, v) :: rest, key, val =>
    if k = key then (k, val) :: rest else (k, v) :: dictSet rest key val

/-- Python `del d[key]` on a present key: removes the binding. -/
def dictDel : List (String × Json) → String → List (String × Json)
  | [], _ => []
  | (k, v) :: rest, key => if k = key then rest else (k, v) :: dictDel rest key

/-- The keys of a dict, in insertion order. -/
def dictKeys (fields : List (String × Json)) : List String :=
  fields.map Prod.fst

/-- `needle` occurs as a prefix of `hay`. -/
def listIsPrefixOfB : List Char → List Char → Bool
  | [], _ => true
  | _ :: _, [] => false
  | a :: as, b :: bs => a == b && listIsPrefixOfB as bs

/-- `needle` occurs as a contiguous run inside `hay`. -/
def listIsInfixB (needle : List Char) : List Char → Bool
  | [] => listIsPrefixOfB needle []
  | c :: rest => listIsPrefixOfB needle (c :: rest) || listIsInfixB needle rest

/-- Python `needle in hay` on strings: substring test. -/
def strContains (hay needle : String) : Bool :=
  listIsInfixB needle.data hay.data

/-- Python `key in j`: key membership on a dict, substring test on a
string. -/
def pyContains : Json → String → Bool
  | .obj fields, key => (dictLookup fields key).isSome
  | .str s, key => strContains s key

/-- Python `j[key]` with a string key: field access on a dict (`KeyError`
when absent), `TypeError` on a string. -/
def pyGetItem : Json → String → Except PyErr Json
  | .obj fields, key =>
    match dictLookup fields key with
    | some v => .ok v
    | none => .error .keyError
  | .str _, _ => .error .typeError

/-- Python `j[key] = val` with a string key: in-place update on a dict,
`TypeError` on a string. -/
def pySetItem : Json → String → Json → Except PyErr Json
  | .obj fields, key, val => .ok (.obj (dictSet fields key val))
  | .str _, _, _ => .error .typeError

/-- Blob contents, modelled at the JSON value level: either the JSON value
the stored bytes parse to, or bytes that are not valid JSON. -/
inductive Blob where
  | json : Json → Blob
  | notJson : Blob
deriving DecidableEq


/-- The object store: blob name to blob contents. -/
def Store := String → Option Blob

/-- `blob.upload_from_string`: overwrite the blob at `name`. -/
def putBlob (store : Store) (name : String) (b : Blob) : Store :=
  fun k => if k = name then some b else store k

/-- The fixed metadata key `"{data_source}/{data_source_type}/metadata.json"`. -/
def metadataBlobName (data_source data_source_type : String) : String :=
  data_source ++ "/" ++ data_source_type ++ "/metadata.json"

/-- `get_metadata` (src/metadata/dataeng/utils/metadata/common.py:8-49):
returns `none` when the blob does not exist, the parsed document when it
holds valid JSON, and raises `json.JSONDecodeError` otherwise. -/
def get_metadata (store : Store) (data_source data_source_type : String) :
    Except PyErr (Option Json) :=
  match store (metadataBlobName data_source data_source_type) with
  | none => .ok none
  | some (.json j) => .ok (some j)
  | some .notJson => .error .jsonDecodeError

/-- The in-memory merge of `update_metadata`
(src/metadata/dataeng/utils/metadata/common.py:75-96): start from the prior
document (an empty object when absent), ensure the nested path
`last_success.format.market` exists, then set `last_updated`/`prefix` or
`yesterday_last_updated`/`yesterday_prefix` to `now` and `pfx`.  Nested
mutation through Python references becomes lookup, update and write-back at
each level. -/
def update_metadata_doc (metadata₀ : Option Json) (market format pfx : String)
    (yesterday : Bool) (now : String) : Except PyErr Json := do
  let metadata := metadata₀.getD (Json.obj [])
  let metadata ←
    if pyContains metadata "last_success" then pure metadata
    else pySetItem metadata "last_success" (Json.obj [])
  let ls ← pyGetItem metadata "last_success"
  let ls ← if pyContains ls format then pure ls else pySetItem ls format (Json.obj [])
  let fm ← pyGetItem ls format
  let fm ← if pyContains fm market then pure fm else pySetItem fm market (Json.obj [])
  let w ← pyGetItem fm market
  let w ←
    if !yesterday then do
      let w ← pySetItem w "last_updated" (Json.str now)
      pySetItem w "prefix" (Json.str pfx)
    else do
      let w ← pySetItem w "yesterday_last_updated" (Json.str now)
      pySetItem w "yesterday_prefix" (Json.str pfx)
  let fm ← pySetItem fm market w
  let ls ← pySetItem ls format fm
  pySetItem metadata "last_success" ls

/-- `update_metadata` (src/metadata/dataeng/utils/metadata/common.py:52-105):
read the current document, merge, and upload the serialised result back to
the fixed metadata key. -/
def update_metadata (store : Store) (data_source data_source_type market format pfx : String)
    (yesterday : Bool) (now : String) : Except PyErr Store := do
  let metadata₀ ← get_metadata store data_source data_source_type
  let metadata ← update_metadata_doc metadata₀ market format pfx yesterday now
  pure (putBlob store (metadataBlobName data_source data_source_type) (.json metadata))

/-- The in-memory part of `remove_yesterday_metdata`
(src/metadata/dataeng/utils/metadata/common.py:193-211): ensure the nested
path exists (materialising empty objects where missing), then delete the
`yesterday_last_updated` and `yesterday_prefix` keys of the addressed window
when present. -/
def remove_yesterday_doc (metadata : Json) (market format : String) :
    Except PyErr Json := do
  let metadata ←
    if pyContains metadata "last_success" then pure metadata
    else pySetItem metadata "last_success" (Json.obj [])
  let ls ← pyGetItem metadata "last_success"
  let ls ← if pyContains ls format then pure ls else pySetItem ls format (Json.obj [])
  let fm ← pyGetItem ls format
  let fm ← if pyContains fm market then pure fm else pySetItem fm market (Json.obj [])
  let w ← pyGetItem fm market
  let w ←
    if pyContains w "yesterday_last_updated" then do
      match w with
      | .obj fields => pure (Json.obj (dictDel fields "yesterday_last_updated"))
      | .str _ => throw .typeError
    else pure w
  let w ←
    if pyContains w "yesterday_prefix" then do
      match w with
      | .obj fields => pure (Json.obj (dictDel fields "yesterday_prefix"))
      | .str _ => throw .typeError
    else pure w
  let fm ← pySetItem fm market w
  let ls ← pySetItem ls format fm
  pySetItem metadata "last_success" ls

/-- `remove_yesterday_metdata`
(src/metadata/dataeng/utils/metadata/common.py:171-217): read the document;
when absent, return without writing; otherwise remove the `yesterday_*` keys
of the addressed window and upload the document back. -/
def remove_yesterday_metdata (store : Store)
    (data_source data_source_type market format : String) : Except PyErr Store := do
  let metadata₀ ← get_metadata store data_source data_source_type
  match metadata₀ with
  | none => pure store
  | some metadata => do
    let metadata ← remove_yesterday_doc metadata market format
    pure (putBlob store (metadataBlobName data_source data_source_type) (.json metadata))

/-- Fields of an object value; `[]` for anything else. -/
def getObjD : Option Json → List (String × Json)
  | some (.obj l) => l
  | _ => []

/-- Fields of the `last_success` object of a document. -/
def lsFieldsD (fs : List (String × Json)) : List (String × Json) :=
  getObjD (dictLookup fs "last_success")

/-- Fields of the per-`format` object of a document. -/
def fmFieldsD (fs : List (String × Json)) (format : String) : List (String × Json) :=
  getObjD (dictLookup (lsFieldsD fs) format)

/-- Fields of the `(format, market)` window of a document. -/
def wFieldsD (fs : List (String × Json)) (format market : String) : List (String × Json) :=
  getObjD (dictLookup (fmFieldsD fs format) market)

/-- The window contents written by an update: the two keys selected by the
`yesterday` flag set to the call timestamp and the supplied prefix. -/
def newWindow (w : List (String × Json)) (pfx : String) (yesterday : Bool)
    (now : String) : List (String × Json) :=
  if yesterday then
    dictSet (dictSet w "yesterday_last_updated" (.str now)) "yesterday_prefix" (.str pfx)
  else
    dictSet (dictSet w "last_updated" (.str now)) "prefix" (.str pfx)

/-- The document is object-shaped along the addressed
`last_success.format.market` path (the shape every Metadata Document of the
data model has): the top level is an object and each of `last_success`, the
`format` entry and the `market` entry is an object where present. -/
def pathOk (doc : Json) (format market : String) : Bool :=
  match doc with
  | .str _ => false
  | .obj fs =>
    match dictLookup fs "last_success" with
    | none => true
    | some (.str _) => false
    | some (.obj lsf) =>
      match dictLookup lsf format with
      | none => true
      | some (.str _) => false
      | some (.obj fmf) =>
        match dictLookup fmf market with
        | none => true
        | some (.str _) => false
        | some (.obj _) => true

/-- The fields of the `(format, market)` window of a document, when the
whole path exists and is object-shaped. -/
def windowFields (doc : Json) (format market : String) :
    Option (List (String × Json)) :=
  match doc with
  | .obj fs =>
    match dictLookup fs "last_success" with
    | some (.obj lsf) =>
      match dictLookup lsf format with
      | some (.obj fmf) =>
        match dictLookup fmf market with
        | some (.obj w) => some w
        | _ => none
      | _ => none
    | _ => none
  | _ => none

/-- One field of the `(format, market)` window of a document. -/
def windowField (doc : Json) (format market key : String) : Option Json :=
  (windowFields doc format market).bind (fun w => dictLookup w key)

@[simp]
theorem ok_bind {α β : Type} (a : α) (f : α → Except PyErr β) :
    (Except.ok a >>= f) = f a := rfl

@[simp]
theorem pure_eq_ok {α : Type} (a : α) : (pure a : Except PyErr α) = .ok a := rfl

@[simp]
theorem dictLookup_dictSet_self (l : List (String × Json)) (k : String) (v : Json) :
    dictLookup (dictSet l k v) k = some v := by
  induction l with
  | nil => simp [dictSet, dictLookup]
  | cons p rest ih =>
    obtain ⟨k', v'⟩ := p
    by_cases h : k' = k <;> simp [dictSet, dictLookup, h, ih]

theorem dictLookup_dictSet_ne (l : List (String × Json)) (k k' : String) (v : Json)
    (h : k' ≠ k) : dictLookup (dictSet l k v) k' = dictLookup l k' := by
  induction l with
  | nil => simp [dictSet, dictLookup, Ne.symm h]
  | cons p rest ih =>
    obtain ⟨k₀, v₀⟩ := p
    by_cases h₀ : k₀ = k
    · subst h₀
      simp [dictSet, dictLookup, Ne.symm h]
    · by_cases h₁ : k₀ = k' <;> simp [dictSet, dictLookup, h₀, h₁, h, ih]

theorem dictSet_dictSet_self (l : List (String × Json)) (k : String) (v v' : Json) :
    dictSet (dictSet l k v) k v' = dictSet l k v' := by
  induction l with
  | nil => simp [dictSet]
  | cons p rest ih =>
    obtain ⟨k₀, v₀⟩ := p
    by_cases h : k₀ = k <;> simp [dictSet, h, ih]

theorem dictKeys_dictSet_of_mem (l : List (String × Json)) (k : String) (v : Json)
    (h : (dictLookup l k).isSome) : dictKeys (dictSet l k v) = dictKeys l := by
  induction l with
  | nil => simp [dictLookup] at h
  | cons p rest ih =>
    obtain ⟨k₀, v₀⟩ := p
    by_cases h₀ : k₀ = k <;>
      simp_all [dictSet, dictKeys, dictLookup, h₀]

theorem dictKeys_dictSet_of_not_mem (l : List (String × Json)) (k : String) (v : Json)
    (h : dictLookup l k = none) : dictKeys (dictSet l k v) = dictKeys l ++ [k] := by
  induction l with
  | nil => simp [dictSet, dictKeys]
  | cons p rest ih =>
    obtain ⟨k₀, v₀⟩ := p
    by_cases h₀ : k₀ = k <;> simp_all [dictSet, dictKeys, dictLookup, h₀]

theorem dictDel_of_lookup_none (l : List (String × Json)) (k : String)
    (h : dictLookup l k = none) : dictDel l k = l := by
  induction l with
  | nil => simp [dictDel]
  | cons p rest ih =>
    obtain ⟨k₀, v₀⟩ := p
    by_cases h₀ : k₀ = k <;> simp_all [dictDel, dictLookup, h₀]

theorem dictLookup_dictDel_ne (l : List (String × Json)) (k k' : String)
    (h : k' ≠ k) : dictLookup (dictDel l k) k' = dictLookup l k' := by
  induction l with
  | nil => simp [dictDel]
  | cons p rest ih =>
    obtain ⟨k₀, v₀⟩ := p
    by_cases h₀ : k₀ = k
    · subst h₀
      simp [dictDel, dictLookup, Ne.symm h]
    · by_cases h₁ : k₀ = k' <;> simp [dictDel, dictLookup, h₀, h₁, h, ih]

theorem dictLookup_eq_none_of_not_mem (l : List (String × Json)) (k : String)
    (h : k ∉ dictKeys l) : dictLookup l k = none := by
  induction l with
  | nil => simp [dictLookup]
  | cons p rest ih =>
    obtain ⟨k₀, v₀⟩ := p
    rw [dictKeys, List.map_cons] at h
    simp only [List.mem_cons, not_or] at h
    have hne : k₀ ≠ k := fun e => h.1 e.symm
    simp [dictLookup, hne, ih (by simpa [dictKeys] using h.2)]

theorem dictLookup_dictDel_self (l : List (String × Json)) (k : String)
    (h : (dictKeys l).Nodup) : dictLookup (dictDel l k) k = none := by
  induction l with
  | nil => simp [dictDel, dictLookup]
  | cons p rest ih =>
    obtain ⟨k₀, v₀⟩ := p
    rw [dictKeys, List.map_cons] at h
    have h' := List.nodup_cons.mp h
    by_cases h₀ : k₀ = k
    · subst h₀
      simp only [dictDel, if_pos rfl]
      exact dictLookup_eq_none_of_not_mem rest k₀ (by simpa [dictKeys] using h'.1)
    · simp [dictDel, dictLookup, h₀, ih (by simpa [dictKeys] using h'.2)]

/-- The document produced by the in-memory merge of `update_metadata` on a
prior document with fields `fs`. -/
def updatedDoc (fs : List (String × Json)) (market format pfx : String)
    (y : Bool) (now : String) : Json :=
  .obj (dictSet fs "last_success"
    (.obj (dictSet (lsFieldsD fs) format
      (.obj (dictSet (fmFieldsD fs format) market
        (.obj (newWindow (wFieldsD fs format market) pfx y now)))))))

/-- The document produced by the in-memory part of `remove_yesterday_metdata`
on a prior document with fields `fs`. -/
def removedDoc (fs : List (String × Json)) (market format : String) : Json :=
  .obj (dictSet fs "last_success"
    (.obj (dictSet (lsFieldsD fs) format
      (.obj (dictSet (fmFieldsD fs format) market
        (.obj (dictDel (dictDel (wFieldsD fs format market)
          "yesterday_last_updated") "yesterday_prefix")))))))

theorem update_metadata_doc_eq (fs : List (String × Json))
    (market format pfx now : String) (y : Bool)
    (h : pathOk (.obj fs) format market = true) :
    update_metadata_doc (some (.obj fs)) market format pfx y now =
      .ok (updatedDoc fs market format pfx y now) := by
  unfold updatedDoc
  cases hls : dictLookup fs "last_success" with
  | none =>
    cases y <;>
      simp [update_metadata_doc, pyContains, pyGetItem, pySetItem, hls,
        lsFieldsD, fmFieldsD, wFieldsD, getObjD, newWindow, dictSet,
        dictSet_dictSet_self, dictLookup]
  | some ls₀ =>
    cases ls₀ with
    | str s => simp [pathOk, hls] at h
    | obj lsf =>
      cases hfm : dictLookup lsf format with
      | none =>
        cases y <;>
          simp [update_metadata_doc, pyContains, pyGetItem, pySetItem, hls, hfm,
            lsFieldsD, fmFieldsD, wFieldsD, getObjD, newWindow, dictSet,
            dictSet_dictSet_self, dictLookup]
      | some fm₀ =>
        cases fm₀ with
        | str s => simp [pathOk, hls, hfm] at h
        | obj fmf =>
          cases hw : dictLookup fmf market with
          | none =>
            cases y <;>
              simp [update_metadata_doc, pyContains, pyGetItem, pySetItem, hls,
                hfm, hw, lsFieldsD, fmFieldsD, wFieldsD, getObjD, newWindow,
                dictSet, dictSet_dictSet_self, dictLookup]
          | some w₀ =>
            cases w₀ with
            | str s => simp [pathOk, hls, hfm, hw] at h
            | obj wf =>
              cases y <;>
                simp [update_metadata_doc, pyContains, pyGetItem, pySetItem,
                  hls, hfm, hw, lsFieldsD, fmFieldsD, wFieldsD, getObjD,
                  newWindow, dictSet, dictSet_dictSet_self, dictLookup]

/-- The conditional delete of the source collapses to an unconditional
`dictDel`: deleting an absent key changes nothing. -/
theorem condDel_eq (wf : List (String × Json)) (k : String) :
    (if (dictLookup wf k).isSome then Json.obj (dictDel wf k) else Json.obj wf) =
      Json.obj (dictDel wf k) := by
  cases hk : dictLookup wf k with
  | none => simp [dictDel_of_lookup_none wf k hk]
  | some v => simp

theorem remove_yesterday_doc_eq (fs : List (String × Json)) (market format : String)
    (h : pathOk (.obj fs) format market = true) :
    remove_yesterday_doc (.obj fs) market format =
      .ok (removedDoc fs market format) := by
  unfold removedDoc
  cases hls : dictLookup fs "last_success" with
  | none =>
    simp [remove_yesterday_doc, pyContains, pyGetItem, pySetItem, hls,
      lsFieldsD, fmFieldsD, wFieldsD, getObjD, dictSet, dictDel,
      dictSet_dictSet_self, dictLookup]
  | some ls₀ =>
    cases ls₀ with
    | str s => simp [pathOk, hls] at h
    | obj lsf =>
      cases hfm : dictLookup lsf format with
      | none =>
        simp [remove_yesterday_doc, pyContains, pyGetItem, pySetItem, hls, hfm,
          lsFieldsD, fmFieldsD, wFieldsD, getObjD, dictSet, dictDel,
          dictSet_dictSet_self, dictLookup]
      | some fm₀ =>
        cases fm₀ with
        | str s => simp [pathOk, hls, hfm] at h
        | obj fmf =>
          cases hw : dictLookup fmf market with
          | none =>
            simp [remove_yesterday_doc, pyContains, pyGetItem, pySetItem, hls,
              hfm, hw, lsFieldsD, fmFieldsD, wFieldsD, getObjD, dictSet,
              dictDel, dictSet_dictSet_self, dictLookup]
          | some w₀ =>
            cases w₀ with
            | str s => simp [pathOk, hls, hfm, hw] at h
            | obj wf =>
              have h1 := condDel_eq wf "yesterday_last_updated"
              have h2 := condDel_eq (dictDel wf "yesterday_last_updated")
                "yesterday_prefix"
              simp [remove_yesterday_doc, pyContains, pyGetItem, pySetItem,
                hls, hfm, hw, lsFieldsD, fmFieldsD, wFieldsD, getObjD,
                dictSet_dictSet_self]
              cases hd1 : dictLookup wf "yesterday_last_updated" with
              | none =>
                rw [dictDel_of_lookup_none wf _ hd1]
                cases hd2 : dictLookup wf "yesterday_prefix" with
                | none =>
                  rw [dictDel_of_lookup_none wf _ hd2]
                  simp [hd1, hd2]
                | some v2 => simp [hd1, hd2]
              | some v1 =>
                cases hd2 : dictLookup (dictDel wf "yesterday_last_updated")
                    "yesterday_prefix" with
                | none =>
                  rw [dictDel_of_lookup_none _ _ hd2]
                  simp [hd1, hd2]
                | some v2 => simp [hd1, hd2]

theorem putBlob_self (store : Store) (name : String) (b : Blob) :
    putBlob store name b name = some b := by
  simp [putBlob]

theorem putBlob_ne (store : Store) (name k : String) (b : Blob) (h : k ≠ name) :
    putBlob store name b k = store k := by
  simp [putBlob, h]

theorem update_metadata_absent (store : Store)
    (data_source data_source_type market format pfx now : String) (y : Bool)
    (hb : store (metadataBlobName data_source data_source_type) = none) :
    update_metadata store data_source data_source_type market format pfx y now =
      .ok (putBlob store (metadataBlobName data_source data_source_type)
        (.json (updatedDoc [] market format pfx y now))) := by
  have h0 : pathOk (.obj ([] : List (String × Json))) format market = true := rfl
  have hd : update_metadata_doc none market format pfx y now =
      .ok (updatedDoc [] market format pfx y now) :=
    update_metadata_doc_eq [] market format pfx now y h0
  simp [update_metadata, get_metadata, hb, hd]

theorem update_metadata_present (store : Store)
    (data_source data_source_type market format pfx now : String) (y : Bool)
    (fs : List (String × Json))
    (hb : store (metadataBlobName data_source data_source_type) =
      some (.json (.obj fs)))
    (hpath : pathOk (.obj fs) format market = true) :
    update_metadata store data_source data_source_type market format pfx y now =
      .ok (putBlob store (metadataBlobName data_source data_source_type)
        (.json (updatedDoc fs market format pfx y now))) := by
  simp [update_metadata, get_metadata, hb,
    update_metadata_doc_eq fs market format pfx now y hpath]

theorem remove_yesterday_absent (store : Store)
    (data_source data_source_type market format : String)
    (hb : store (metadataBlobName data_source data_source_type) = none) :
    remove_yesterday_metdata store data_source data_source_type market format =
      .ok store := by
  simp [remove_yesterday_metdata, get_metadata, hb]

theorem remove_yesterday_present (store : Store)
    (data_source data_source_type market format : String)
    (fs : List (String × Json))
    (hb : store (metadataBlobName data_source data_source_type) =
      some (.json (.obj fs)))
    (hpath : pathOk (.obj fs) format market = true) :
    remove_yesterday_metdata store data_source data_source_type market format =
      .ok (putBlob store (metadataBlobName data_source data_source_type)
        (.json (removedDoc fs market format))) := by
  simp [remove_yesterday_metdata, get_metadata, hb,
    remove_yesterday_doc_eq fs market format hpath]

theorem windowFields_setPath_self (fs : List (String × Json))
    (format market : String) (W : List (String × Json)) :
    windowFields (.obj (dictSet fs "last_success"
      (.obj (dictSet (lsFieldsD fs) format
        (.obj (dictSet (fmFieldsD fs format) market (.obj W))))))) format market =
      some W := by
  simp [windowFields, dictLookup_dictSet_self]

theorem windowFields_setPath_ne (fs : List (String × Json))
    (format market f' m' : String) (W : List (String × Json))
    (h : ¬(f' = format ∧ m' = market)) :
    windowFields (.obj (dictSet fs "last_success"
      (.obj (dictSet (lsFieldsD fs) format
        (.obj (dictSet (fmFieldsD fs format) market (.obj W))))))) f' m' =
      windowFields (.obj fs) f' m' := by
  by_cases hf : f' = format
  · subst hf
    have hm : m' ≠ market := fun e => h ⟨rfl, e⟩
    cases hls : dictLookup fs "last_success" with
    | none =>
      simp [windowFields, dictLookup_dictSet_self, lsFieldsD, fmFieldsD,
        getObjD, hls, dictLookup_dictSet_ne _ _ _ _ hm, Ne.symm hm, dictLookup]
    | some ls₀ =>
      cases ls₀ with
      | str s =>
        simp [windowFields, dictLookup_dictSet_self, lsFieldsD, fmFieldsD,
          getObjD, hls, dictLookup_dictSet_ne _ _ _ _ hm, Ne.symm hm, dictLookup]
      | obj lsf =>
        cases hfm : dictLookup lsf f' with
        | none =>
          simp [windowFields, dictLookup_dictSet_self, lsFieldsD, fmFieldsD,
            getObjD, hls, hfm, dictLookup_dictSet_ne _ _ _ _ hm, Ne.symm hm, dictLookup]
        | some fm₀ =>
          cases fm₀ with
          | str s =>
            simp [windowFields, dictLookup_dictSet_self, lsFieldsD, fmFieldsD,
              getObjD, hls, hfm, dictLookup_dictSet_ne _ _ _ _ hm, Ne.symm hm, dictLookup]
          | obj fmf =>
            simp [windowFields, dictLookup_dictSet_self, lsFieldsD, fmFieldsD,
              getObjD, hls, hfm, dictLookup_dictSet_ne _ _ _ _ hm, Ne.symm hm, dictLookup]
  · cases hls : dictLookup fs "last_success" with
    | none =>
      simp [windowFields, dictLookup_dictSet_self, lsFieldsD, fmFieldsD,
        getObjD, hls, dictLookup_dictSet_ne _ _ _ _ hf, Ne.symm hf, dictLookup]
    | some ls₀ =>
      cases ls₀ with
      | str s =>
        simp [windowFields, dictLookup_dictSet_self, lsFieldsD, fmFieldsD,
          getObjD, hls, dictLookup_dictSet_ne _ _ _ _ hf, Ne.symm hf, dictLookup]
      | obj lsf =>
        simp [windowFields, dictLookup_dictSet_self, lsFieldsD, fmFieldsD,
          getObjD, hls, dictLookup_dictSet_ne _ _ _ _ hf, Ne.symm hf, dictLookup]

theorem newWindow_lookup_now (w : List (String × Json)) (pfx now : String)
    (y : Bool) :
    dictLookup (newWindow w pfx y now)
      (if y then "yesterday_last_updated" else "last_updated") = some (.str now) := by
  cases y
  · show dictLookup (dictSet (dictSet w "last_updated" (.str now)) "prefix"
      (.str pfx)) "last_updated" = some (.str now)
    rw [dictLookup_dictSet_ne _ _ _ _ (by decide), dictLookup_dictSet_self]
  · show dictLookup (dictSet (dictSet w "yesterday_last_updated" (.str now))
      "yesterday_prefix" (.str pfx)) "yesterday_last_updated" = some (.str now)
    rw [dictLookup_dictSet_ne _ _ _ _ (by decide), dictLookup_dictSet_self]

theorem newWindow_lookup_pfx (w : List (String × Json)) (pfx now : String)
    (y : Bool) :
    dictLookup (newWindow w pfx y now)
      (if y then "yesterday_prefix" else "prefix") = some (.str pfx) := by
  cases y
  · show dictLookup (dictSet (dictSet w "last_updated" (.str now)) "prefix"
      (.str pfx)) "prefix" = some (.str pfx)
    rw [dictLookup_dictSet_self]
  · show dictLookup (dictSet (dictSet w "yesterday_last_updated" (.str now))
      "yesterday_prefix" (.str pfx)) "yesterday_prefix" = some (.str pfx)
    rw [dictLookup_dictSet_self]

/-- A store with no blobs. -/
def emptyStore : Store := fun _ => none

/-- A store holding exactly one blob. -/
def singleBlobStore (name : String) (b : Blob) : Store :=
  fun k => if k = name then some b else none

/-- Top-level fields of a document. -/
def topFields : Json → List (String × Json)
  | .obj fs => fs
  | .str _ => []

theorem windowFields_updatedDoc (fs : List (String × Json))
    (market format pfx now : String) (y : Bool) :
    windowFields (updatedDoc fs market format pfx y now) format market =
      some (newWindow (wFieldsD fs format market) pfx y now) := by
  unfold updatedDoc
  exact windowFields_setPath_self fs format market _

theorem windowFields_updatedDoc_ne (fs : List (String × Json))
    (market format pfx now f' m' : String) (y : Bool)
    (h : ¬(f' = format ∧ m' = market)) :
    windowFields (updatedDoc fs market format pfx y now) f' m' =
      windowFields (.obj fs) f' m' := by
  unfold updatedDoc
  exact windowFields_setPath_ne fs format market f' m' _ h

theorem windowFields_removedDoc (fs : List (String × Json))
    (market format : String) :
    windowFields (removedDoc fs market format) format market =
      some (dictDel (dictDel (wFieldsD fs format market)
        "yesterday_last_updated") "yesterday_prefix") := by
  unfold removedDoc
  exact windowFields_setPath_self fs format market _

theorem windowFields_removedDoc_ne (fs : List (String × Json))
    (market format f' m' : String) (h : ¬(f' = format ∧ m' = market)) :
    windowFields (removedDoc fs market format) f' m' =
      windowFields (.obj fs) f' m' := by
  unfold removedDoc
  exact windowFields_setPath_ne fs format market f' m' _ h

theorem pathOk_setPath (fs : List (String × Json)) (format market : String)
    (W : List (String × Json)) :
    pathOk (.obj (dictSet fs "last_success"
      (.obj (dictSet (lsFieldsD fs) format
        (.obj (dictSet (fmFieldsD fs format) market (.obj W))))))) format market =
      true := by
  simp [pathOk, dictLookup_dictSet_self]

theorem pathOk_updatedDoc (fs : List (String × Json))
    (market format pfx now : String) (y : Bool) :
    pathOk (updatedDoc fs market format pfx y now) format market = true := by
  unfold updatedDoc
  exact pathOk_setPath fs format market _

theorem wFieldsD_of_windowFields_none (fs : List (String × Json))
    (format market : String) (hp : pathOk (.obj fs) format market = true)
    (hw : windowFields (.obj fs) format market = none) :
    wFieldsD fs format market = [] := by
  cases hls : dictLookup fs "last_success" with
  | none => simp [wFieldsD, fmFieldsD, lsFieldsD, getObjD, hls, dictLookup]
  | some ls₀ =>
    cases ls₀ with
    | str s => simp [pathOk, hls] at hp
    | obj lsf =>
      cases hfm : dictLookup lsf format with
      | none => simp [wFieldsD, fmFieldsD, lsFieldsD, getObjD, hls, hfm, dictLookup]
      | some fm₀ =>
        cases fm₀ with
        | str s => simp [pathOk, hls, hfm] at hp
        | obj fmf =>
          cases hwm : dictLookup fmf market with
          | none => simp [wFieldsD, fmFieldsD, lsFieldsD, getObjD, hls, hfm, hwm]
          | some w₀ =>
            cases w₀ with
            | str s => simp [pathOk, hls, hfm, hwm] at hp
            | obj wf => simp [windowFields, hls, hfm, hwm] at hw

theorem dictKeys_dictDel_sublist (l : List (String × Json)) (k : String) :
    List.Sublist (dictKeys (dictDel l k)) (dictKeys l) := by
  induction l with
  | nil => simp [dictDel]
  | cons p rest ih =>
    obtain ⟨k₀, v₀⟩ := p
    by_cases h₀ : k₀ = k
    · simp only [dictDel, if_pos h₀, dictKeys, List.map_cons]
      exact List.sublist_cons_of_sublist _ (List.Sublist.refl _)
    · simp only [dictDel, if_neg h₀, dictKeys, List.map_cons]
      exact List.Sublist.cons₂ _ ih

theorem dictKeys_dictDel_nodup (l : List (String × Json)) (k : String)
    (h : (dictKeys l).Nodup) : (dictKeys (dictDel l k)).Nodup :=
  (dictKeys_dictDel_sublist l k).nodup h

theorem lsFieldsD_setPath (fs X : List (String × Json)) :
    lsFieldsD (dictSet fs "last_success" (.obj X)) = X := by
  simp [lsFieldsD, dictLookup_dictSet_self, getObjD]

theorem dictKeys_newWindow_of_mem (w : List (String × Json)) (p n : String)
    (h1 : (dictLookup w "last_updated").isSome)
    (h2 : (dictLookup w "prefix").isSome) :
    dictKeys (newWindow w p false n) = dictKeys w := by
  show dictKeys (dictSet (dictSet w "last_updated" (.str n)) "prefix" (.str p)) =
    dictKeys w
  have h2' : (dictLookup (dictSet w "last_updated" (.str n)) "prefix").isSome := by
    rw [dictLookup_dictSet_ne _ _ _ _ (by decide)]
    exact h2
  rw [dictKeys_dictSet_of_mem _ _ _ h2', dictKeys_dictSet_of_mem _ _ _ h1]

theorem newWindow_false_lookup_lu (w : List (String × Json)) (p n : String) :
    dictLookup (newWindow w p false n) "last_updated" = some (.str n) := by
  show dictLookup (dictSet (dictSet w "last_updated" (.str n)) "prefix" (.str p))
    "last_updated" = some (.str n)
  rw [dictLookup_dictSet_ne _ _ _ _ (by decide), dictLookup_dictSet_self]

theorem newWindow_false_lookup_pfx (w : List (String × Json)) (p n : String) :
    dictLookup (newWindow w p false n) "prefix" = some (.str p) := by
  show dictLookup (dictSet (dictSet w "last_updated" (.str n)) "prefix" (.str p))
    "prefix" = some (.str p)
  rw [dictLookup_dictSet_self]

/-- C4: for every `(data_source, data_source_type)`, `get_metadata` returns
an explicit absent result (`none`, not an error) when the metadata blob does
not exist, parses and returns the JSON document when it does, and raises —
surfaces the error to the caller with no local recovery — exactly when the
stored blob body is not valid JSON. -/
theorem C4_get_absent_parse_raise (store : Store)
    (data_source data_source_type : String) :
    (store (metadataBlobName data_source data_source_type) = none →
      get_metadata store data_source data_source_type = .ok none) ∧
    (∀ j, store (metadataBlobName data_source data_source_type) = some (.json j) →
      get_metadata store data_source data_source_type = .ok (some j)) ∧
    ((∃ e, get_metadata store data_source data_source_type = .error e) ↔
      store (metadataBlobName data_source data_source_type) = some .notJson) := by
  refine ⟨fun h => by simp [get_metadata, h], fun j h => by simp [get_metadata, h], ?_⟩
  cases hb : store (metadataBlobName data_source data_source_type) with
  | none => simp [get_metadata, hb]
  | some b =>
    cases b with
    | json j => simp [get_metadata, hb]
    | notJson =>
      simp only [get_metadata, hb, iff_true]
      exact ⟨.jsonDecodeError, rfl⟩

/-- Witness for C4 at concrete stores: a valid document is returned, an
absent blob gives the explicit absent result, and a non-JSON blob raises. -/
theorem C4_witness :
    get_metadata (singleBlobStore (metadataBlobName "ds" "dt")
        (.json (.obj []))) "ds" "dt" = .ok (some (.obj [])) ∧
    get_metadata emptyStore "ds" "dt" = .ok none ∧
    (∃ e, get_metadata (singleBlobStore (metadataBlobName "ds" "dt") .notJson)
      "ds" "dt" = .error e) :=
  ⟨(C4_get_absent_parse_raise _ "ds" "dt").2.1 (.obj []) rfl,
   (C4_get_absent_parse_raise emptyStore "ds" "dt").1 rfl,
   (C4_get_absent_parse_raise _ "ds" "dt").2.2.mpr rfl⟩

/-- C1: for every prior document state (the absent state, treated as an
empty object, or any object-shaped Metadata Document) and all arguments,
`update_metadata` succeeds, ensures the nested `last_success.format.market`
path exists, sets the keys selected by the `yesterday` flag
(`last_updated`/`prefix`, or `yesterday_last_updated`/`yesterday_prefix`)
to the call timestamp `now` and the supplied prefix, and writes the whole
document back over the prior blob; an immediate `get_metadata` for the same
`(data_source, data_source_type)` returns that document, whose
`(format, market)` window holds the supplied prefix and the timestamp of
the update call (hence a timestamp no older than the call). -/
theorem C1_update_then_get (store : Store)
    (data_source data_source_type market format pfx now : String)
    (yesterday : Bool)
    (h : store (metadataBlobName data_source data_source_type) = none ∨
      ∃ fs, store (metadataBlobName data_source data_source_type) =
          some (.json (.obj fs)) ∧ pathOk (.obj fs) format market = true) :
    ∃ store' doc,
      update_metadata store data_source data_source_type market format pfx
        yesterday now = .ok store' ∧
      store' (metadataBlobName data_source data_source_type) =
        some (.json doc) ∧
      get_metadata store' data_source data_source_type = .ok (some doc) ∧
      windowField doc format market
        (if yesterday then "yesterday_prefix" else "prefix") =
        some (.str pfx) ∧
      windowField doc format market
        (if yesterday then "yesterday_last_updated" else "last_updated") =
        some (.str now) := by
  have main : ∀ fs : List (String × Json),
      update_metadata store data_source data_source_type market format pfx
        yesterday now =
        .ok (putBlob store (metadataBlobName data_source data_source_type)
          (.json (updatedDoc fs market format pfx yesterday now))) →
      ∃ store' doc,
        update_metadata store data_source data_source_type market format pfx
          yesterday now = .ok store' ∧
        store' (metadataBlobName data_source data_source_type) =
          some (.json doc) ∧
        get_metadata store' data_source data_source_type = .ok (some doc) ∧
        windowField doc format market
          (if yesterday then "yesterday_prefix" else "prefix") =
          some (.str pfx) ∧
        windowField doc format market
          (if yesterday then "yesterday_last_updated" else "last_updated") =
          some (.str now) := by
    intro fs hrun
    refine ⟨_, updatedDoc fs market format pfx yesterday now, hrun,
      putBlob_self _ _ _, ?_, ?_, ?_⟩
    · simp [get_metadata, putBlob_self]
    · simp [windowField, windowFields_updatedDoc, newWindow_lookup_pfx]
    · simp [windowField, windowFields_updatedDoc, newWindow_lookup_now]
  rcases h with hb | ⟨fs, hb, hp⟩
  · exact main []
      (update_metadata_absent store _ _ market format pfx now yesterday hb)
  · exact main fs
      (update_metadata_present store _ _ market format pfx now yesterday fs hb hp)

/-- Witness for C1: updating over the absent state and reading back. -/
theorem C1_witness :
    ∃ store' doc,
      update_metadata emptyStore "ds" "dt" "gb" "csv" "p" false "t" =
        .ok store' ∧
      store' (metadataBlobName "ds" "dt") = some (.json doc) ∧
      get_metadata store' "ds" "dt" = .ok (some doc) ∧
      windowField doc "csv" "gb" (if false then "yesterday_prefix" else "prefix") =
        some (.str "p") ∧
      windowField doc "csv" "gb"
        (if false then "yesterday_last_updated" else "last_updated") =
        some (.str "t") :=
  C1_update_then_get emptyStore "ds" "dt" "gb" "csv" "p" "t" false (Or.inl rfl)

/-- C9: when the addressed `(format, market)` window does not exist in the
prior state (document absent, or present without that window), an update
with `yesterday = true` produces a window holding exactly
`yesterday_last_updated` and `yesterday_prefix` and no `last_updated` or
`prefix` field, and a subsequent `get_metadata` returns that document. -/
theorem C9_yesterday_fresh_window (store : Store)
    (data_source data_source_type market format pfx now : String)
    (h : store (metadataBlobName data_source data_source_type) = none ∨
      ∃ fs, store (metadataBlobName data_source data_source_type) =
          some (.json (.obj fs)) ∧ pathOk (.obj fs) format market = true ∧
          windowFields (.obj fs) format market = none) :
    ∃ store' doc,
      update_metadata store data_source data_source_type market format pfx
        true now = .ok store' ∧
      store' (metadataBlobName data_source data_source_type) =
        some (.json doc) ∧
      get_metadata store' data_source data_source_type = .ok (some doc) ∧
      windowFields doc format market =
        some [("yesterday_last_updated", .str now),
              ("yesterday_prefix", .str pfx)] ∧
      windowField doc format market "last_updated" = none ∧
      windowField doc format market "prefix" = none := by
  have main : ∀ fs : List (String × Json), wFieldsD fs format market = [] →
      update_metadata store data_source data_source_type market format pfx
        true now =
        .ok (putBlob store (metadataBlobName data_source data_source_type)
          (.json (updatedDoc fs market format pfx true now))) →
      ∃ store' doc,
        update_metadata store data_source data_source_type market format pfx
          true now = .ok store' ∧
        store' (metadataBlobName data_source data_source_type) =
          some (.json doc) ∧
        get_metadata store' data_source data_source_type = .ok (some doc) ∧
        windowFields doc format market =
          some [("yesterday_last_updated", .str now),
                ("yesterday_prefix", .str pfx)] ∧
        windowField doc format market "last_updated" = none ∧
        windowField doc format market "prefix" = none := by
    intro fs hempty hrun
    have hwf : windowFields (updatedDoc fs market format pfx true now)
        format market =
        some [("yesterday_last_updated", .str now),
              ("yesterday_prefix", .str pfx)] := by
      rw [windowFields_updatedDoc, hempty]
      rfl
    refine ⟨_, updatedDoc fs market format pfx true now, hrun,
      putBlob_self _ _ _, ?_, hwf, ?_, ?_⟩
    · simp [get_metadata, putBlob_self]
    · simp only [windowField, hwf, Option.bind_some]
      simp [dictLookup]
    · simp only [windowField, hwf, Option.bind_some]
      simp [dictLookup]
  rcases h with hb | ⟨fs, hb, hp, hw⟩
  · exact main [] rfl
      (update_metadata_absent store _ _ market format pfx now true hb)
  · exact main fs (wFieldsD_of_windowFields_none fs format market hp hw)
      (update_metadata_present store _ _ market format pfx now true fs hb hp)

/-- Witness for C9: a yesterday-update over the absent state yields a window
with only the `yesterday_*` fields. -/
theorem C9_witness :
    ∃ store' doc,
      update_metadata emptyStore "ds" "dt" "gb" "csv" "p" true "t" =
        .ok store' ∧
      store' (metadataBlobName "ds" "dt") = some (.json doc) ∧
      get_metadata store' "ds" "dt" = .ok (some doc) ∧
      windowFields doc "csv" "gb" =
        some [("yesterday_last_updated", .str "t"),
              ("yesterday_prefix", .str "p")] ∧
      windowField doc "csv" "gb" "last_updated" = none ∧
      windowField doc "csv" "gb" "prefix" = none :=
  C9_yesterday_fresh_window emptyStore "ds" "dt" "gb" "csv" "p" "t" (Or.inl rfl)

theorem fmFieldsD_setPath (fs X : List (String × Json)) (format : String) :
    fmFieldsD (dictSet fs "last_success"
      (.obj (dictSet (lsFieldsD fs) format (.obj X)))) format = X := by
  unfold fmFieldsD
  rw [lsFieldsD_setPath]
  simp [dictLookup_dictSet_self, getObjD]

theorem wFieldsD_setPath (fs X : List (String × Json)) (format market : String) :
    wFieldsD (dictSet fs "last_success" (.obj (dictSet (lsFieldsD fs) format
      (.obj (dictSet (fmFieldsD fs format) market (.obj X)))))) format market =
      X := by
  unfold wFieldsD
  rw [fmFieldsD_setPath]
  simp [dictLookup_dictSet_self, getObjD]

theorem updatedDoc_keys_preserved (g L F W : List (String × Json))
    (market format p n : String)
    (hL : dictLookup g "last_success" = some (.obj L))
    (hF : dictLookup L format = some (.obj F))
    (hW : dictLookup F market = some (.obj W))
    (hlu : (dictLookup W "last_updated").isSome)
    (hpk : (dictLookup W "prefix").isSome) :
    dictKeys (topFields (updatedDoc g market format p false n)) = dictKeys g ∧
    dictKeys (lsFieldsD (topFields (updatedDoc g market format p false n))) =
      dictKeys L ∧
    dictKeys (fmFieldsD (topFields (updatedDoc g market format p false n))
      format) = dictKeys F ∧
    dictKeys (wFieldsD (topFields (updatedDoc g market format p false n))
      format market) = dictKeys W := by
  have hgL : lsFieldsD g = L := by simp [lsFieldsD, hL, getObjD]
  have hgF : fmFieldsD g format = F := by simp [fmFieldsD, hgL, hF, getObjD]
  have hgW : wFieldsD g format market = W := by simp [wFieldsD, hgF, hW, getObjD]
  have htop : topFields (updatedDoc g market format p false n) =
      dictSet g "last_success" (.obj (dictSet L format (.obj (dictSet F market
        (.obj (newWindow W p false n)))))) := by
    simp [updatedDoc, topFields, hgL, hgF, hgW]
  refine ⟨?_, ?_, ?_, ?_⟩
  · rw [htop, dictKeys_dictSet_of_mem]
    simp [hL]
  · rw [htop, ← hgL, lsFieldsD_setPath, hgL, dictKeys_dictSet_of_mem]
    simp [hF]
  · rw [htop, ← hgL, fmFieldsD_setPath, dictKeys_dictSet_of_mem]
    simp [hW]
  · rw [htop, ← hgL, ← hgF, wFieldsD_setPath]
    exact dictKeys_newWindow_of_mem W p n hlu hpk

/-- C5: on a document already holding arbitrary `(format, market)` windows,
two successive updates of the same `(format, market)` with
`is_yesterday = false` overwrite `last_updated` and `prefix` in that window
in place: the second result holds the latest timestamp and prefix, every
other `(format, market)` window is present and unchanged, and the key
structure of the document is identical at every level to the document after
the first call (no entry duplicated, none lost). -/
theorem C5_update_twice_in_place (store : Store)
    (data_source data_source_type market format pfx₁ pfx₂ now₁ now₂ : String)
    (fs : List (String × Json))
    (hb : store (metadataBlobName data_source data_source_type) =
      some (.json (.obj fs)))
    (hp : pathOk (.obj fs) format market = true) :
    ∃ store₁ doc₁ store₂ doc₂,
      update_metadata store data_source data_source_type market format pfx₁
        false now₁ = .ok store₁ ∧
      store₁ (metadataBlobName data_source data_source_type) =
        some (.json doc₁) ∧
      update_metadata store₁ data_source data_source_type market format pfx₂
        false now₂ = .ok store₂ ∧
      store₂ (metadataBlobName data_source data_source_type) =
        some (.json doc₂) ∧
      windowField doc₂ format market "last_updated" = some (.str now₂) ∧
      windowField doc₂ format market "prefix" = some (.str pfx₂) ∧
      (∀ f' m', ¬(f' = format ∧ m' = market) →
        windowFields doc₂ f' m' = windowFields (.obj fs) f' m') ∧
      dictKeys (topFields doc₂) = dictKeys (topFields doc₁) ∧
      dictKeys (lsFieldsD (topFields doc₂)) =
        dictKeys (lsFieldsD (topFields doc₁)) ∧
      dictKeys (fmFieldsD (topFields doc₂) format) =
        dictKeys (fmFieldsD (topFields doc₁) format) ∧
      dictKeys (wFieldsD (topFields doc₂) format market) =
        dictKeys (wFieldsD (topFields doc₁) format market) := by
  have h1 := update_metadata_present store data_source data_source_type market
    format pfx₁ now₁ false fs hb hp
  have hb1 : putBlob store (metadataBlobName data_source data_source_type)
      (.json (updatedDoc fs market format pfx₁ false now₁))
      (metadataBlobName data_source data_source_type) =
      some (.json (.obj (topFields (updatedDoc fs market format pfx₁ false
        now₁)))) := putBlob_self _ _ _
  have hp1 : pathOk (.obj (topFields (updatedDoc fs market format pfx₁ false
      now₁))) format market = true :=
    pathOk_updatedDoc fs market format pfx₁ now₁ false
  have h2 := update_metadata_present
    (putBlob store (metadataBlobName data_source data_source_type)
      (.json (updatedDoc fs market format pfx₁ false now₁)))
    data_source data_source_type market format pfx₂ now₂ false
    (topFields (updatedDoc fs market format pfx₁ false now₁)) hb1 hp1
  have hL : dictLookup (topFields (updatedDoc fs market format pfx₁ false now₁))
      "last_success" =
      some (.obj (dictSet (lsFieldsD fs) format
        (.obj (dictSet (fmFieldsD fs format) market
          (.obj (newWindow (wFieldsD fs format market) pfx₁ false now₁)))))) := by
    simp [updatedDoc, topFields, dictLookup_dictSet_self]
  have hF := dictLookup_dictSet_self (lsFieldsD fs) format
    (.obj (dictSet (fmFieldsD fs format) market
      (.obj (newWindow (wFieldsD fs format market) pfx₁ false now₁))))
  have hW := dictLookup_dictSet_self (fmFieldsD fs format) market
    (.obj (newWindow (wFieldsD fs format market) pfx₁ false now₁))
  have hlu : (dictLookup (newWindow (wFieldsD fs format market) pfx₁ false now₁)
      "last_updated").isSome := by
    rw [newWindow_false_lookup_lu]
    rfl
  have hpk : (dictLookup (newWindow (wFieldsD fs format market) pfx₁ false now₁)
      "prefix").isSome := by
    rw [newWindow_false_lookup_pfx]
    rfl
  have hk := updatedDoc_keys_preserved
    (topFields (updatedDoc fs market format pfx₁ false now₁))
    (dictSet (lsFieldsD fs) format
      (.obj (dictSet (fmFieldsD fs format) market
        (.obj (newWindow (wFieldsD fs format market) pfx₁ false now₁)))))
    (dictSet (fmFieldsD fs format) market
      (.obj (newWindow (wFieldsD fs format market) pfx₁ false now₁)))
    (newWindow (wFieldsD fs format market) pfx₁ false now₁)
    market format pfx₂ now₂ hL hF hW hlu hpk
  have eL : lsFieldsD (topFields (updatedDoc fs market format pfx₁ false now₁)) =
      dictSet (lsFieldsD fs) format
        (.obj (dictSet (fmFieldsD fs format) market
          (.obj (newWindow (wFieldsD fs format market) pfx₁ false now₁)))) := by
    simp [lsFieldsD, hL, getObjD]
  have eF : fmFieldsD (topFields (updatedDoc fs market format pfx₁ false now₁))
      format =
      dictSet (fmFieldsD fs format) market
        (.obj (newWindow (wFieldsD fs format market) pfx₁ false now₁)) := by
    simp [fmFieldsD, eL, hF, getObjD]
  have eW : wFieldsD (topFields (updatedDoc fs market format pfx₁ false now₁))
      format market =
      newWindow (wFieldsD fs format market) pfx₁ false now₁ := by
    simp [wFieldsD, eF, hW, getObjD]
  refine ⟨_, updatedDoc fs market format pfx₁ false now₁, _,
    updatedDoc (topFields (updatedDoc fs market format pfx₁ false now₁))
      market format pfx₂ false now₂,
    h1, putBlob_self _ _ _, h2, putBlob_self _ _ _, ?_, ?_, ?_, hk.1, ?_, ?_, ?_⟩
  · simp [windowField, windowFields_updatedDoc, newWindow_false_lookup_lu]
  · simp [windowField, windowFields_updatedDoc, newWindow_false_lookup_pfx]
  · intro f' m' hne
    rw [windowFields_updatedDoc_ne _ market format pfx₂ now₂ f' m' false hne]
    exact windowFields_updatedDoc_ne fs market format pfx₁ now₁ f' m' false hne
  · rw [eL]
    exact hk.2.1
  · rw [eF]
    exact hk.2.2.1
  · rw [eW]
    exact hk.2.2.2

/-- Witness for C5 on a document with an unrelated market window. -/
theorem C5_witness :
    ∃ store₁ doc₁ store₂ doc₂,
      update_metadata (singleBlobStore (metadataBlobName "ds" "dt")
          (.json (.obj [("last_success", .obj [("csv", .obj [("de",
            .obj [("last_updated", .str "t0"), ("prefix", .str "p0")])])])])))
        "ds" "dt" "gb" "csv" "p1" false "t1" = .ok store₁ ∧
      store₁ (metadataBlobName "ds" "dt") = some (.json doc₁) ∧
      update_metadata store₁ "ds" "dt" "gb" "csv" "p2" false "t2" =
        .ok store₂ ∧
      store₂ (metadataBlobName "ds" "dt") = some (.json doc₂) ∧
      windowField doc₂ "csv" "gb" "last_updated" = some (.str "t2") ∧
      windowField doc₂ "csv" "gb" "prefix" = some (.str "p2") ∧
      (∀ f' m', ¬(f' = "csv" ∧ m' = "gb") →
        windowFields doc₂ f' m' =
          windowFields (.obj [("last_success", .obj [("csv", .obj [("de",
            .obj [("last_updated", .str "t0"), ("prefix", .str "p0")])])])])
            f' m') ∧
      dictKeys (topFields doc₂) = dictKeys (topFields doc₁) ∧
      dictKeys (lsFieldsD (topFields doc₂)) =
        dictKeys (lsFieldsD (topFields doc₁)) ∧
      dictKeys (fmFieldsD (topFields doc₂) "csv") =
        dictKeys (fmFieldsD (topFields doc₁) "csv") ∧
      dictKeys (wFieldsD (topFields doc₂) "csv" "gb") =
        dictKeys (wFieldsD (topFields doc₁) "csv" "gb") :=
  C5_update_twice_in_place _ "ds" "dt" "gb" "csv" "p1" "p2" "t1" "t2"
    [("last_success", .obj [("csv", .obj [("de",
      .obj [("last_updated", .str "t0"), ("prefix", .str "p0")])])])]
    rfl (by decide)

/-- Counterexample to C2 as stated: on an existing document that lacks the
addressed window (here the empty object), `remove_yesterday_metdata` is not
a no-op — it writes back a document in which empty objects have been
materialised along the `last_success.format.market` path, so the stored
blob changes. -/
theorem C2_counterexample :
    (remove_yesterday_metdata (singleBlobStore (metadataBlobName "ds" "dt")
        (.json (.obj []))) "ds" "dt" "gb" "csv").map
      (fun s => s (metadataBlobName "ds" "dt")) =
      .ok (some (.json (.obj [("last_success",
        .obj [("csv", .obj [("gb", .obj [])])])]))) ∧
    ¬ ((remove_yesterday_metdata (singleBlobStore (metadataBlobName "ds" "dt")
        (.json (.obj []))) "ds" "dt" "gb" "csv").map
      (fun s => s (metadataBlobName "ds" "dt")) =
      .ok (singleBlobStore (metadataBlobName "ds" "dt") (.json (.obj []))
        (metadataBlobName "ds" "dt"))) := by
  constructor
  · rfl
  · intro h
    simp only [show (remove_yesterday_metdata (singleBlobStore
      (metadataBlobName "ds" "dt") (.json (.obj []))) "ds" "dt" "gb"
      "csv").map (fun s => s (metadataBlobName "ds" "dt")) =
      .ok (some (.json (.obj [("last_success",
        .obj [("csv", .obj [("gb", .obj [])])])]))) from rfl] at h
    simp only [show singleBlobStore (metadataBlobName "ds" "dt")
      (.json (.obj [])) (metadataBlobName "ds" "dt") =
      some (.json (.obj [])) from rfl] at h
    simp at h

/-- C2 (amended): `clear_yesterday` never raises.  When the document is
absent it is a strict no-op.  When the document exists it removes the
`yesterday_last_updated` and `yesterday_prefix` keys of the addressed
`(format, market)` window when present and writes the document back; every
other field of the addressed window, every other `(format, market)` window
and every other blob are unchanged — but when the addressed window or an
intermediate object is missing, empty objects are materialised along the
path in the written-back document (so the operation is not a literal no-op
on such documents). -/
theorem C2_clear_yesterday (store : Store)
    (data_source data_source_type market format : String) :
    (store (metadataBlobName data_source data_source_type) = none →
      remove_yesterday_metdata store data_source data_source_type market
        format = .ok store) ∧
    (∀ fs, store (metadataBlobName data_source data_source_type) =
        some (.json (.obj fs)) →
      pathOk (.obj fs) format market = true →
      (dictKeys (wFieldsD fs format market)).Nodup →
      remove_yesterday_metdata store data_source data_source_type market
        format =
        .ok (putBlob store (metadataBlobName data_source data_source_type)
          (.json (removedDoc fs market format))) ∧
      windowField (removedDoc fs market format) format market
        "yesterday_last_updated" = none ∧
      windowField (removedDoc fs market format) format market
        "yesterday_prefix" = none ∧
      (∀ k, k ≠ "yesterday_last_updated" → k ≠ "yesterday_prefix" →
        windowField (removedDoc fs market format) format market k =
          dictLookup (wFieldsD fs format market) k) ∧
      (∀ f' m', ¬(f' = format ∧ m' = market) →
        windowFields (removedDoc fs market format) f' m' =
          windowFields (.obj fs) f' m') ∧
      (∀ k, k ≠ metadataBlobName data_source data_source_type →
        putBlob store (metadataBlobName data_source data_source_type)
          (.json (removedDoc fs market format)) k = store k)) := by
  constructor
  · intro hb
    exact remove_yesterday_absent store _ _ market format hb
  · intro fs hb hp hnd
    refine ⟨remove_yesterday_present store _ _ market format fs hb hp,
      ?_, ?_, ?_, ?_, ?_⟩
    · simp only [windowField, windowFields_removedDoc]
      show dictLookup (dictDel (dictDel (wFieldsD fs format market)
        "yesterday_last_updated") "yesterday_prefix")
        "yesterday_last_updated" = none
      rw [dictLookup_dictDel_ne
        (dictDel (wFieldsD fs format market) "yesterday_last_updated")
        "yesterday_prefix" "yesterday_last_updated" (by decide)]
      exact dictLookup_dictDel_self _ _ hnd
    · simp only [windowField, windowFields_removedDoc]
      show dictLookup (dictDel (dictDel (wFieldsD fs format market)
        "yesterday_last_updated") "yesterday_prefix") "yesterday_prefix" = none
      exact dictLookup_dictDel_self _ _
        (dictKeys_dictDel_nodup _ "yesterday_last_updated" hnd)
    · intro k hk1 hk2
      simp only [windowField, windowFields_removedDoc]
      show dictLookup (dictDel (dictDel (wFieldsD fs format market)
        "yesterday_last_updated") "yesterday_prefix") k =
        dictLookup (wFieldsD fs format market) k
      rw [dictLookup_dictDel_ne
        (dictDel (wFieldsD fs format market) "yesterday_last_updated")
        "yesterday_prefix" k hk2,
        dictLookup_dictDel_ne (wFieldsD fs format market)
        "yesterday_last_updated" k hk1]
    · intro f' m' hne
      exact windowFields_removedDoc_ne fs market format f' m' hne
    · intro k hk
      exact putBlob_ne store _ k _ hk

/-- Witness for C2 (amended): the absent case is a strict no-op, and on a
document whose window holds both `yesterday_*` keys next to others, the
operation removes exactly those keys. -/
theorem C2_witness :
    remove_yesterday_metdata emptyStore "ds" "dt" "gb" "csv" =
      .ok emptyStore ∧
    remove_yesterday_metdata (singleBlobStore (metadataBlobName "ds" "dt")
        (.json (.obj [("last_success", .obj [("csv", .obj [("gb",
          .obj [("last_updated", .str "t"),
                ("yesterday_last_updated", .str "yt"),
                ("yesterday_prefix", .str "yp")])])])])))
      "ds" "dt" "gb" "csv" =
      .ok (putBlob (singleBlobStore (metadataBlobName "ds" "dt")
        (.json (.obj [("last_success", .obj [("csv", .obj [("gb",
          .obj [("last_updated", .str "t"),
                ("yesterday_last_updated", .str "yt"),
                ("yesterday_prefix", .str "yp")])])])])))
        (metadataBlobName "ds" "dt")
        (.json (removedDoc [("last_success", .obj [("csv", .obj [("gb",
          .obj [("last_updated", .str "t"),
                ("yesterday_last_updated", .str "yt"),
                ("yesterday_prefix", .str "yp")])])])] "gb" "csv"))) ∧
    windowField (removedDoc [("last_success", .obj [("csv", .obj [("gb",
        .obj [("last_updated", .str "t"),
              ("yesterday_last_updated", .str "yt"),
              ("yesterday_prefix", .str "yp")])])])] "gb" "csv")
      "csv" "gb" "yesterday_last_updated" = none :=
  ⟨(C2_clear_yesterday emptyStore "ds" "dt" "gb" "csv").1 rfl,
   ((C2_clear_yesterday (singleBlobStore (metadataBlobName "ds" "dt")
       (.json (.obj [("last_success", .obj [("csv", .obj [("gb",
         .obj [("last_updated", .str "t"),
               ("yesterday_last_updated", .str "yt"),
               ("yesterday_prefix", .str "yp")])])])])))
       "ds" "dt" "gb" "csv").2
     [("last_success", .obj [("csv", .obj [("gb",
       .obj [("last_updated", .str "t"),
             ("yesterday_last_updated", .str "yt"),
             ("yesterday_prefix", .str "yp")])])])]
     rfl (by decide) (by decide)).1,
   ((C2_clear_yesterday (singleBlobStore (metadataBlobName "ds" "dt")
       (.json (.obj [("last_success", .obj [("csv", .obj [("gb",
         .obj [("last_updated", .str "t"),
               ("yesterday_last_updated", .str "yt"),
               ("yesterday_prefix", .str "yp")])])])])))
       "ds" "dt" "gb" "csv").2
     [("last_success", .obj [("csv", .obj [("gb",
       .obj [("last_updated", .str "t"),
             ("yesterday_last_updated", .str "yt"),
             ("yesterday_prefix", .str "yp")])])])]
     rfl (by decide) (by decide)).2.1⟩

/-!
Naming deriver (src/naming/dataeng/utils/naming/naming.py).  `hashlib.sha1`
is embedded as the SHA-1 algorithm over byte lists (`Nat`s below 256), with
`str.encode("utf-8")` as UTF-8 encoding of the characters; `str.lower` and
the other string helpers are embedded character-wise (faithful on the ASCII
identifiers these functions are applied to).  The random
`str(uuid.uuid4())` of `get_staging_dataset_id` is an explicit input.
-/

/-- Truncation to 32 bits. -/
def mask32 (n : Nat) : Nat := n % 4294967296

/-- 32-bit left rotation by `k` (for `k ≤ 32`). -/
def rotl32 (n k : Nat) : Nat := mask32 ((n <<< k) ||| (n >>> (32 - k)))

/-- Big-endian 32-bit word from four bytes. -/
def bytesToWord (a b c d : Nat) : Nat :=
  (a <<< 24) ||| (b <<< 16) ||| (c <<< 8) ||| d

/-- Groups a byte list into big-endian 32-bit words. -/
def toWords : List Nat → List Nat
  | a :: b :: c :: d :: rest => bytesToWord a b c d :: toWords rest
  | _ => []

/-- SHA-1 padding: append `0x80`, zeros, and the 64-bit big-endian bit
length, to a multiple of 64 bytes. -/
def sha1pad (msg : List Nat) : List Nat :=
  let ml := 8 * msg.length
  let padLen := (64 - (msg.length + 9) % 64) % 64
  msg ++ [128] ++ List.replicate padLen 0 ++
    [(ml >>> 56) % 256, (ml >>> 48) % 256, (ml >>> 40) % 256,
     (ml >>> 32) % 256, (ml >>> 24) % 256, (ml >>> 16) % 256,
     (ml >>> 8) % 256, ml % 256]

/-- Extends the 16 message-schedule words by `k` more words. -/
def sha1extend (ws : List Nat) : Nat → List Nat
  | 0 => ws
  | k + 1 =>
    let n := ws.length
    sha1extend (ws ++ [rotl32 ((ws.getD (n - 3) 0) ^^^ (ws.getD (n - 8) 0) ^^^
      (ws.getD (n - 14) 0) ^^^ (ws.getD (n - 16) 0)) 1]) k

/-- One SHA-1 round on the five-word state. -/
def sha1round (st : Nat × Nat × Nat × Nat × Nat) (i w : Nat) :
    Nat × Nat × Nat × Nat × Nat :=
  match st with
  | (a, b, c, d, e) =>
    let f :=
      if i < 20 then (b &&& c) ||| ((b ^^^ 4294967295) &&& d)
      else if i < 40 then b ^^^ c ^^^ d
      else if i < 60 then (b &&& c) ||| (b &&& d) ||| (c &&& d)
      else b ^^^ c ^^^ d
    let k :=
      if i < 20 then 1518500249
      else if i < 40 then 1859775393
      else if i < 60 then 2400959708
      else 3395469782
    let temp := mask32 (rotl32 a 5 + f + e + k + w)
    (temp, a, rotl32 b 30, c, d)

/-- Processes one 64-byte chunk. -/
def sha1chunk (h0 h1 h2 h3 h4 : Nat) (chunk : List Nat) :
    Nat × Nat × Nat × Nat × Nat :=
  let ws := sha1extend (toWords chunk) 64
  match ((List.range 80).zip ws).foldl (fun st iw => sha1round st iw.1 iw.2)
      (h0, h1, h2, h3, h4) with
  | (a, b, c, d, e) =>
    (mask32 (h0 + a), mask32 (h1 + b), mask32 (h2 + c), mask32 (h3 + d),
     mask32 (h4 + e))

/-- Splits a byte list into 64-byte chunks; `fuel` bounds the recursion
depth (any `fuel ≥` the list length is enough, since every step consumes at
least one element). -/
def chunks64Aux : Nat → List Nat → List (List Nat)
  | _, [] => []
  | 0, _ :: _ => []
  | fuel + 1, x :: rest =>
    (x :: rest).take 64 :: chunks64Aux fuel ((x :: rest).drop 64)

/-- Splits a byte list into 64-byte chunks. -/
def chunks64 (l : List Nat) : List (List Nat) := chunks64Aux l.length l

/-- The five-word SHA-1 digest of a byte list. -/
def sha1hash (msg : List Nat) : Nat × Nat × Nat × Nat × Nat :=
  (chunks64 (sha1pad msg)).foldl
    (fun h chunk => sha1chunk h.1 h.2.1 h.2.2.1 h.2.2.2.1 h.2.2.2.2 chunk)
    (1732584193, 4023233417, 2562383102, 271733878, 3285377520)

/-- Lowercase hex digit. -/
def hexChar (n : Nat) : Char :=
  if n < 10 then Char.ofNat (48 + n) else Char.ofNat (87 + n)

/-- Eight lowercase hex digits of a 32-bit word. -/
def wordHex (w : Nat) : List Char :=
  [hexChar ((w >>> 28) % 16), hexChar ((w >>> 24) % 16),
   hexChar ((w >>> 20) % 16), hexChar ((w >>> 16) % 16),
   hexChar ((w >>> 12) % 16), hexChar ((w >>> 8) % 16),
   hexChar ((w >>> 4) % 16), hexChar (w % 16)]

/-- `hashlib.sha1(msg).hexdigest()`: the 40-character lowercase hex
digest. -/
def sha1hexdigest (msg : List Nat) : String :=
  match sha1hash msg with
  | (a, b, c, d, e) =>
    ⟨wordHex a ++ wordHex b ++ wordHex c ++ wordHex d ++ wordHex e⟩

/-- UTF-8 encoding of one character. -/
def utf8Bytes (c : Char) : List Nat :=
  let n := c.toNat
  if n < 128 then [n]
  else if n < 2048 then [192 + n / 64, 128 + n % 64]
  else if n < 65536 then [224 + n / 4096, 128 + (n / 64) % 64, 128 + n % 64]
  else [240 + n / 262144, 128 + (n / 4096) % 64, 128 + (n / 64) % 64,
        128 + n % 64]

/-- `str.encode("utf-8")` as a byte list. -/
def strBytes (s : String) : List Nat :=
  s.data.foldr (fun c acc => utf8Bytes c ++ acc) []

/-- `str.lower()`, character-wise (faithful on ASCII input). -/
def pyLower (s : String) : String := ⟨s.data.map Char.toLower⟩

/-- `hash_sha1.hexdigest()[:10]` of the UTF-8 bytes of `text`. -/
def hexdigest10 (text : String) : String :=
  ⟨(sha1hexdigest (strBytes text)).data.take 10⟩

/-- The fixed domain suffix `DOMAIN_NAME = "dataeng.com"`. -/
def DOMAIN_NAME : String := "dataeng.com"

/-- `get_ingestion_bucket_name`
(src/naming/dataeng/utils/naming/naming.py:18-39): lower-cases `org_name`
and `group_name` (not `project_id`), hashes the concatenation, and returns
`"{hashed}.{domain_name}"`. -/
def get_ingestion_bucket_name (project_id org_name group_name : String) :
    String :=
  hexdigest10 (project_id ++ pyLower org_name ++ pyLower group_name) ++
    "." ++ DOMAIN_NAME

/-- `get_modeling_bucket_name`
(src/naming/dataeng/utils/naming/naming.py:42-67): lower-cases `org_name`,
`group_name` and `repo_name` (not `project_id`) before hashing. -/
def get_modeling_bucket_name (project_id org_name group_name repo_name :
    String) : String :=
  hexdigest10 (project_id ++ pyLower org_name ++ pyLower group_name ++
    pyLower repo_name) ++ "." ++ DOMAIN_NAME

/-- `get_dags_bucket_name` (src/naming/dataeng/utils/naming/naming.py:70-86):
`"{bucket_prefix}-{hashed}.{domain_name}"` with `DAGS_BUCKET_PREFIX =
"composer"`. -/
def get_dags_bucket_name (project_id : String) : String :=
  "composer" ++ "-" ++ hexdigest10 project_id ++ "." ++ DOMAIN_NAME

/-- `get_dataflow_bucket_name`
(src/naming/dataeng/utils/naming/naming.py:89-105): the same hash with
`DATAFLOW_BUCKET_PREFIX = "dataflow"`. -/
def get_dataflow_bucket_name (project_id : String) : String :=
  "dataflow" ++ "-" ++ hexdigest10 project_id ++ "." ++ DOMAIN_NAME

/-- `get_test_bucket_name`
(src/naming/dataeng/utils/naming/naming.py:108-124): the same hash with
`TEST_BUCKET_PREFIX = "test"`. -/
def get_test_bucket_name (project_id : String) : String :=
  "test" ++ "-" ++ hexdigest10 project_id ++ "." ++ DOMAIN_NAME

/-- `str.zfill(width)`: pad on the left with `'0'` to `width` characters; a
leading `'+'` or `'-'` stays in front of the inserted zeros; a string at
least `width` long is returned unchanged. -/
def zfill (s : String) (width : Nat) : String :=
  if width ≤ s.length then s
  else
    if s.data.head? = some '+' ∨ s.data.head? = some '-' then
      ⟨s.data.take 1 ++ List.replicate (width - s.length) '0' ++ s.data.drop 1⟩
    else
      ⟨List.replicate (width - s.length) '0' ++ s.data⟩

/-- `_zfill_with_len` (src/naming/dataeng/utils/naming/naming.py:216-232):
returns the placeholder `"_"` and `None` unchanged, zero-fills everything
else to the expected length.  The Python `len` parameter is `n` here. -/
def _zfill_with_len (val : Option String) (n : Nat) : Option String :=
  match val with
  | none => none
  | some s => if s = "_" then some s else some (zfill s n)

/-- How `str.format` renders an interpolated value: `None` becomes the
literal text `"None"`, a string is inserted verbatim. -/
def pyStr : Option String → String
  | none => "None"
  | some s => s

/-- `get_prefix` (src/naming/dataeng/utils/naming/naming.py:141-175), the
partition-prefix builder (named `get_prefix_` here): the template
`"{data_source}/{data_source_type}/{location}/{year}/{month}/{day}/{hour}/{minute}/{second}/{format}/"`
with year zero-filled to 4 and month/day/hour/minute/second to 2; the
Python defaults pass `"_"` for every time component.  Components are
`Option String` so that a `None` argument is representable. -/
def get_prefix_ (data_source data_source_type format : String)
    (location year month day hour minute second : Option String) : String :=
  data_source ++ "/" ++ data_source_type ++ "/" ++ pyStr location ++ "/" ++
    pyStr ( _zfill_with_len year 4) ++ "/" ++
    pyStr ( _zfill_with_len month 2) ++ "/" ++
    pyStr ( _zfill_with_len day 2) ++ "/" ++
    pyStr ( _zfill_with_len hour 2) ++ "/" ++
    pyStr ( _zfill_with_len minute 2) ++ "/" ++
    pyStr ( _zfill_with_len second 2) ++ "/" ++ format ++ "/"

/-- `re.compile(r"[\W]").sub("_", s)`: every character outside `[a-zA-Z0-9_]`
becomes `'_'` (faithful on ASCII input). -/
def pyWsub (s : String) : String :=
  ⟨s.data.map (fun c => if c.isAlphanum || c = '_' then c else '_')⟩

/-- `str.strip("_")`: remove leading and trailing underscores. -/
def pyStripUnderscore (s : String) : String :=
  ⟨((s.data.dropWhile (fun c => c == '_')).reverse.dropWhile
    (fun c => c == '_')).reverse⟩

/-- `str.replace("-", "_")` on the single-character pattern. -/
def replaceDash (s : String) : String :=
  ⟨s.data.map (fun c => if c = '-' then '_' else c)⟩

/-- `get_staging_dataset_id`
(src/naming/dataeng/utils/naming/naming.py:192-213): sanitise both inputs
(replace non-word characters by `'_'`, strip outer underscores) and append
the random `str(uuid.uuid4())` with its hyphens replaced by `'_'`; the
random string is the explicit input `u`. -/
def get_staging_dataset_id (data_source data_source_type u : String) :
    String :=
  "staging_" ++ pyStripUnderscore (pyWsub data_source) ++ "_" ++
    pyStripUnderscore (pyWsub data_source_type) ++ "_" ++ replaceDash u

theorem str_append_assoc (a b c : String) : a ++ b ++ c = a ++ (b ++ c) :=
  congrArg String.mk (List.append_assoc a.data b.data c.data)

set_option maxRecDepth 100000

/-- Counterexample to C3 as stated: `project_id` is not lower-cased before
hashing, so two identity tuples equal after lower-casing every field can
yield different bucket names — changing only the case of `project_id`
changes the result. -/
theorem C3_counterexample :
    pyLower "A" = pyLower "a" ∧
    get_ingestion_bucket_name "A" "o" "g" ≠
      get_ingestion_bucket_name "a" "o" "g" := by
  constructor
  · rfl
  · decide

/-- C3 (amended): `get_ingestion_bucket_name` and
`get_modeling_bucket_name` are deterministic (two calls with the same
arguments yield the identical name), and `org_name`, `group_name` and
`repo_name` — but not `project_id` — are lower-cased before hashing, so
case variation in those fields alone never changes the resulting name. -/
theorem C3_deterministic_case_normalized (p o g r o' g' r' : String) :
    get_ingestion_bucket_name p o g = get_ingestion_bucket_name p o g ∧
    get_modeling_bucket_name p o g r = get_modeling_bucket_name p o g r ∧
    (pyLower o = pyLower o' → pyLower g = pyLower g' →
      get_ingestion_bucket_name p o g = get_ingestion_bucket_name p o' g') ∧
    (pyLower o = pyLower o' → pyLower g = pyLower g' →
      pyLower r = pyLower r' →
      get_modeling_bucket_name p o g r = get_modeling_bucket_name p o' g' r') := by
  refine ⟨rfl, rfl, ?_, ?_⟩
  · intro h1 h2
    simp [get_ingestion_bucket_name, h1, h2]
  · intro h1 h2 h3
    simp [get_modeling_bucket_name, h1, h2, h3]

/-- Witness for C3 (amended) at concretely re-cased org/group/repo. -/
theorem C3_witness :
    get_ingestion_bucket_name "P" "Org" "GRP" =
      get_ingestion_bucket_name "P" "oRG" "grp" ∧
    get_modeling_bucket_name "P" "Org" "GRP" "Repo" =
      get_modeling_bucket_name "P" "oRG" "grp" "rePO" :=
  ⟨(C3_deterministic_case_normalized "P" "Org" "GRP" "Repo" "oRG" "grp"
      "rePO").2.2.1 rfl rfl,
   (C3_deterministic_case_normalized "P" "Org" "GRP" "Repo" "oRG" "grp"
      "rePO").2.2.2 rfl rfl rfl⟩

/-- C7: for every `project_id`, the DAGs, DataFlow and test bucket names
carry the fixed prefixes `composer-`, `dataflow-` and `test-` in front of
the same `project_id` hash, and the three names are pairwise distinct. -/
theorem C7_prefixed_distinct (project_id : String) :
    get_dags_bucket_name project_id =
      "composer-" ++ (hexdigest10 project_id ++ "." ++ DOMAIN_NAME) ∧
    get_dataflow_bucket_name project_id =
      "dataflow-" ++ (hexdigest10 project_id ++ "." ++ DOMAIN_NAME) ∧
    get_test_bucket_name project_id =
      "test-" ++ (hexdigest10 project_id ++ "." ++ DOMAIN_NAME) ∧
    get_dags_bucket_name project_id ≠ get_dataflow_bucket_name project_id ∧
    get_dags_bucket_name project_id ≠ get_test_bucket_name project_id ∧
    get_dataflow_bucket_name project_id ≠ get_test_bucket_name project_id := by
  have hch : (get_dags_bucket_name project_id).data.head? = some 'c' := rfl
  have hdh : (get_dataflow_bucket_name project_id).data.head? = some 'd' := rfl
  have hth : (get_test_bucket_name project_id).data.head? = some 't' := rfl
  refine ⟨?_, ?_, ?_, ?_, ?_, ?_⟩
  · show "composer-" ++ hexdigest10 project_id ++ "." ++ DOMAIN_NAME = _
    rw [str_append_assoc ("composer-" ++ hexdigest10 project_id) "."
        DOMAIN_NAME,
      str_append_assoc "composer-" (hexdigest10 project_id)
        ("." ++ DOMAIN_NAME),
      str_append_assoc (hexdigest10 project_id) "." DOMAIN_NAME]
  · show "dataflow-" ++ hexdigest10 project_id ++ "." ++ DOMAIN_NAME = _
    rw [str_append_assoc ("dataflow-" ++ hexdigest10 project_id) "."
        DOMAIN_NAME,
      str_append_assoc "dataflow-" (hexdigest10 project_id)
        ("." ++ DOMAIN_NAME),
      str_append_assoc (hexdigest10 project_id) "." DOMAIN_NAME]
  · show "test-" ++ hexdigest10 project_id ++ "." ++ DOMAIN_NAME = _
    rw [str_append_assoc ("test-" ++ hexdigest10 project_id) "." DOMAIN_NAME,
      str_append_assoc "test-" (hexdigest10 project_id) ("." ++ DOMAIN_NAME),
      str_append_assoc (hexdigest10 project_id) "." DOMAIN_NAME]
  · intro h
    have h' : some 'c' = some 'd' := by rw [← hch, ← hdh, h]
    simp at h'
  · intro h
    have h' : some 'c' = some 't' := by rw [← hch, ← hth, h]
    simp at h'
  · intro h
    have h' : some 'd' = some 't' := by rw [← hdh, ← hth, h]
    simp at h'

/-- Witness for C7 at a concrete project id. -/
theorem C7_witness :
    get_dags_bucket_name "P" =
      "composer-" ++ (hexdigest10 "P" ++ "." ++ DOMAIN_NAME) ∧
    get_dataflow_bucket_name "P" =
      "dataflow-" ++ (hexdigest10 "P" ++ "." ++ DOMAIN_NAME) ∧
    get_test_bucket_name "P" =
      "test-" ++ (hexdigest10 "P" ++ "." ++ DOMAIN_NAME) ∧
    get_dags_bucket_name "P" ≠ get_dataflow_bucket_name "P" ∧
    get_dags_bucket_name "P" ≠ get_test_bucket_name "P" ∧
    get_dataflow_bucket_name "P" ≠ get_test_bucket_name "P" :=
  C7_prefixed_distinct "P"

theorem zfill_length (s : String) (w : Nat) :
    (zfill s w).length = max s.length w := by
  have hmk : ∀ l : List Char, (String.mk l).length = l.length := fun _ => rfl
  have hlen : s.length = s.data.length := rfl
  unfold zfill
  by_cases hw : w ≤ s.length
  · simp [hw, Nat.max_eq_left hw]
  · rw [if_neg hw, Nat.max_eq_right (Nat.le_of_not_le hw)]
    by_cases hsign : s.data.head? = some '+' ∨ s.data.head? = some '-'
    · rw [if_pos hsign, hmk]
      have h1 : 1 ≤ s.data.length := by
        cases hd : s.data with
        | nil => rw [hd] at hsign; simp at hsign
        | cons c rest => simp [hd]
      rw [hlen] at hw
      simp only [List.length_append, List.length_replicate, List.length_take,
        List.length_drop, Nat.min_eq_left h1]
      omega
    · rw [if_neg hsign, hmk]
      rw [hlen] at hw
      simp only [List.length_append, List.length_replicate]
      omega

/-- C6: `get_prefix` zero-pads each non-placeholder time component to its
fixed width (year to 4, the rest to 2: the padded value has length
`max (length) (width)`), leaves the literal placeholder `"_"` un-padded,
performs no calendar validation (a day of `"99"` is accepted verbatim), and
on the concrete arguments of the spec produces
`"gfk/matched_report/_/2018/01/31/_/_/_/csv/"`. -/
theorem C6_partition_padding :
    get_prefix_ "gfk" "matched_report" "csv" (some "_") (some "2018")
      (some "01") (some "31") (some "_") (some "_") (some "_") =
      "gfk/matched_report/_/2018/01/31/_/_/_/csv/" ∧
    (∀ n, _zfill_with_len (some "_") n = some "_") ∧
    (∀ s n, s ≠ "_" → _zfill_with_len (some s) n = some (zfill s n)) ∧
    (∀ s w, (zfill s w).length = max s.length w) ∧
    get_prefix_ "gfk" "matched_report" "csv" (some "_") (some "2018")
      (some "01") (some "99") (some "_") (some "_") (some "_") =
      "gfk/matched_report/_/2018/01/99/_/_/_/csv/" := by
  refine ⟨rfl, fun n => rfl, fun s n hs => ?_, zfill_length, rfl⟩
  simp [ _zfill_with_len, hs]

/-- Witness for C6: the non-placeholder `"7"` is zero-filled to width 2 and
the padded length is the width. -/
theorem C6_witness :
    _zfill_with_len (some "7") 2 = some (zfill "7" 2) ∧
    (zfill "7" 2).length = max "7".length 2 :=
  ⟨C6_partition_padding.2.2.1 "7" 2 (by decide),
   C6_partition_padding.2.2.2.1 "7" 2⟩

/-- C10: a `None` time component does not raise: `_zfill_with_len` returns
it without padding and the format step renders it as the literal text
`"None"` in its position of the resulting path, for every data source, type
and format. -/
theorem C10_none_component (data_source data_source_type format : String) :
    (∀ n, _zfill_with_len none n = none) ∧
    pyStr none = "None" ∧
    get_prefix_ data_source data_source_type format (some "_") none (some "_")
      (some "_") (some "_") (some "_") (some "_") =
      data_source ++ "/" ++ data_source_type ++ "/" ++ "_" ++ "/" ++ "None" ++
        "/" ++ "_" ++ "/" ++ "_" ++ "/" ++ "_" ++ "/" ++ "_" ++ "/" ++ "_" ++
        "/" ++ format ++ "/" ∧
    get_prefix_ "gfk" "matched_report" "csv" (some "_") none (some "_")
      (some "_") (some "_") (some "_") (some "_") =
      "gfk/matched_report/_/None/_/_/_/_/_/csv/" :=
  ⟨fun _ => rfl, rfl, rfl, rfl⟩

/-- Witness for C10 at concrete arguments. -/
theorem C10_witness :
    (∀ n, _zfill_with_len none n = none) ∧
    pyStr none = "None" ∧
    get_prefix_ "gfk" "matched_report" "csv" (some "_") none (some "_")
      (some "_") (some "_") (some "_") (some "_") =
      "gfk" ++ "/" ++ "matched_report" ++ "/" ++ "_" ++ "/" ++ "None" ++
        "/" ++ "_" ++ "/" ++ "_" ++ "/" ++ "_" ++ "/" ++ "_" ++ "/" ++ "_" ++
        "/" ++ "csv" ++ "/" ∧
    get_prefix_ "gfk" "matched_report" "csv" (some "_") none (some "_")
      (some "_") (some "_") (some "_") (some "_") =
      "gfk/matched_report/_/None/_/_/_/_/_/csv/" :=
  C10_none_component "gfk" "matched_report" "csv"

/-- C8: `get_staging_dataset_id("a!b", "c?d", u)` is
`"staging_a_b_c_d_"` followed by the random suffix with hyphens replaced by
underscores; for a 36-character suffix the total length is the
sanitized-prefix length (`"staging_a_b_c_d"`) plus 37; and two calls whose
random suffixes differ (after hyphen replacement) produce different
results. -/
theorem C8_staging_dataset_id (u u₁ u₂ : String) (hu : u.length = 36) :
    get_staging_dataset_id "a!b" "c?d" u =
      "staging_a_b_c_d_" ++ replaceDash u ∧
    (get_staging_dataset_id "a!b" "c?d" u).length =
      "staging_a_b_c_d".length + 37 ∧
    (replaceDash u₁ ≠ replaceDash u₂ →
      get_staging_dataset_id "a!b" "c?d" u₁ ≠
        get_staging_dataset_id "a!b" "c?d" u₂) := by
  have hpre : ∀ v : String, get_staging_dataset_id "a!b" "c?d" v =
      "staging_a_b_c_d_" ++ replaceDash v := fun v => rfl
  have hlapp : ∀ a b : String, (a ++ b).length = a.length + b.length :=
    fun a b => List.length_append a.data b.data
  refine ⟨hpre u, ?_, ?_⟩
  · rw [hpre u, hlapp]
    have h2 : (replaceDash u).length = u.length := List.length_map u.data _
    rw [h2, hu]
    decide
  · intro hne he
    apply hne
    rw [hpre u₁, hpre u₂] at he
    have hd : ("staging_a_b_c_d_").data ++ (replaceDash u₁).data =
        ("staging_a_b_c_d_").data ++ (replaceDash u₂).data :=
      congrArg String.data he
    exact congrArg String.mk (List.append_cancel_left hd)

/-- Witness for C8 at two concrete 36-character UUID strings. -/
theorem C8_witness :
    get_staging_dataset_id "a!b" "c?d" "123e4567-e89b-12d3-a456-426614174000" =
      "staging_a_b_c_d_" ++
        replaceDash "123e4567-e89b-12d3-a456-426614174000" ∧
    (get_staging_dataset_id "a!b" "c?d"
      "123e4567-e89b-12d3-a456-426614174000").length =
      "staging_a_b_c_d".length + 37 ∧
    get_staging_dataset_id "a!b" "c?d" "123e4567-e89b-12d3-a456-426614174000" ≠
      get_staging_dataset_id "a!b" "c?d"
        "00000000-0000-0000-0000-000000000000" :=
  ⟨(C8_staging_dataset_id "123e4567-e89b-12d3-a456-426614174000"
      "123e4567-e89b-12d3-a456-426614174000"
      "00000000-0000-0000-0000-000000000000" (by decide)).1,
   (C8_staging_dataset_id "123e4567-e89b-12d3-a456-426614174000"
      "123e4567-e89b-12d3-a456-426614174000"
      "00000000-0000-0000-0000-000000000000" (by decide)).2.1,
   (C8_staging_dataset_id "123e4567-e89b-12d3-a456-426614174000"
      "123e4567-e89b-12d3-a456-426614174000"
      "00000000-0000-0000-0000-000000000000" (by decide)).2.2 (by decide)⟩

end DataengUtils
